import Mathlib

/-!
Verification of the frame-orchestration layer declared in
`libs/hwui/renderthread/CanvasContext.h` (Android hwui render thread).

The repository ships only the class header; the inline member functions
(`addRenderNode`, `removeRenderNode`, `addFrameMetricsObserver`,
`removeFrameMetricsObserver`, `pinImages`, `unpinImages`, `hasSurface`, ...)
are embedded directly from the source.  Member functions that are merely
declared in the header (`draw`, `doFrame`, `prepareTree`, `setStopped`,
`isSwapChainStuffed`, `enqueueFrameWork`, `waitOnFences`) and the collaborator
classes (`RingBuffer`, `DamageAccumulator`, `FrameMetricsReporter`,
`IRenderPipeline`) are modelled from the specification, as marked on each
definition.
-/

namespace HWUI

/-- A rectangle with integer edges, standing in for `SkRect`
(the source stores damage as an `SkRect`, header line 235). -/
structure SkRect where
  left : Int
  top : Int
  right : Int
  bottom : Int
deriving DecidableEq, Repr

/-- Modelled from the spec: the damage accumulator "merges successive dirty
rectangles ... into a running union" (§4.3); rectangle merge is the usual
bounding join on `SkRect`. -/
def SkRect.join (a c : SkRect) : SkRect :=
  ⟨min a.left c.left, min a.top c.top, max a.right c.right, max a.bottom c.bottom⟩

/-- The empty rectangle, `SkRect::MakeEmpty()`. -/
def SkRect.empty : SkRect := ⟨0, 0, 0, 0⟩

/-- Modelled from the spec: `utils/RingBuffer.h` is not under `src/`; a
fixed-capacity ring buffer keeps only the most recent `cap` entries
("fixed-capacity ring", §3).  `ringPush` appends one entry, discarding the
oldest entries when the capacity is exceeded. -/
def ringPush (cap : Nat) (buf : List α) (x : α) : List α :=
  let l := buf ++ [x]
  if l.length ≤ cap then l else l.drop (l.length - cap)

/-! ### Root render nodes (header lines 163-171, inline in the source) -/

/-- `std::remove(first, last, node)` followed by `erase`: keeps, in order,
exactly the elements different from `node`.  Embedded from
`removeRenderNode` (header lines 168-171); the two-phase erase-remove idiom
is rendered as one recursive pass over the vector. -/
def stdRemove (node : Nat) : List Nat → List Nat
  | [] => []
  | x :: xs => if x = node then stdRemove node xs else x :: stdRemove node xs

/-- `removeRenderNode` (header lines 168-171). -/
def removeRenderNode (nodes : List Nat) (node : Nat) : List Nat :=
  stdRemove node nodes

/-- `addRenderNode` (header lines 163-166): inserts at position 0 when
`placeFront`, else at position `size()`. -/
def addRenderNode (nodes : List Nat) (node : Nat) (placeFront : Bool) : List Nat :=
  let pos := if placeFront then 0 else nodes.length
  nodes.insertIdx pos node

/-! ### Frame metrics observers (header lines 181-196, inline in the source) -/

/-- Modelled from the spec: `FrameMetricsReporter` is not under `src/`; it is
"an observer-fan-out mechanism ... zero or more registered observers,
added/removed dynamically" (§4.5).  Observers are identified by `Nat`. -/
abbrev Reporter := List Nat

/-- Modelled from the spec: `FrameMetricsReporter::addObserver` registers an
observer. -/
def Reporter.addObserver (rep : Reporter) (o : Nat) : Reporter :=
  List.append rep [o]

/-- Modelled from the spec: `FrameMetricsReporter::removeObserver` removes a
registered observer (first matching entry). -/
def Reporter.removeObserver (rep : Reporter) (o : Nat) : Reporter :=
  List.erase rep o

/-- Modelled from the spec: `FrameMetricsReporter::hasObservers` is true when
at least one observer is registered. -/
def Reporter.hasObservers (rep : Reporter) : Bool :=
  !(List.isEmpty rep)

/-- `addFrameMetricsObserver` (header lines 181-187): allocates the reporter
when `mFrameMetricsReporter` is null, then registers the observer. -/
def addFrameMetricsObserver (r : Option Reporter) (o : Nat) : Option Reporter :=
  match r with
  | none => some (Reporter.addObserver ([] : List Nat) o)
  | some rep => some (Reporter.addObserver rep o)

/-- `removeFrameMetricsObserver` (header lines 189-196): if a reporter exists,
deregisters the observer, and frees the reporter when no observers remain. -/
def removeFrameMetricsObserver (r : Option Reporter) (o : Nat) : Option Reporter :=
  match r with
  | none => none
  | some rep =>
      let rep := Reporter.removeObserver rep o
      if Reporter.hasObservers rep then some rep else none

/-- Number of currently registered observers (zero when no reporter exists). -/
def registeredObservers (r : Option Reporter) : Nat :=
  match r with
  | none => 0
  | some rep => List.length rep

/-- One add (`true`) or remove (`false`) call with the observer identity. -/
def applyObserverOp (r : Option Reporter) (op : Bool × Nat) : Option Reporter :=
  if op.1 then addFrameMetricsObserver r op.2 else removeFrameMetricsObserver r op.2

/-! ### Image pinning (header lines 90-100; pipeline modelled) -/

/-- Modelled from the spec: the render pipeline behind
`pinImages`/`unpinImages` is not under `src/`.  "A pinned image is guaranteed
to remain in the cache until it has been unpinned"; `pinImages` returns false
when "cache limits have been exceeded" (header lines 82-89).  The cache keeps
a fixed byte budget and the list of byte sizes of currently pinned images. -/
structure PipelineCache where
  budget : Nat
  pinned : List Nat
deriving DecidableEq, Repr

/-- Total bytes currently pinned in the cache. -/
def PipelineCache.pinnedBytes (c : PipelineCache) : Nat := c.pinned.sum

/-- Modelled from the spec: `pinImages` pins every image when the budget
allows it and reports success; otherwise it pins nothing and reports
failure (header lines 82-95). -/
def pinImages (c : PipelineCache) (images : List Nat) : PipelineCache × Bool :=
  if c.pinnedBytes + images.sum ≤ c.budget then
    ({ c with pinned := c.pinned ++ images }, true)
  else
    (c, false)

/-- Modelled from the spec: `unpinImages` unpins "any image that had been
previously pinned" (header lines 97-100). -/
def unpinImages (c : PipelineCache) : PipelineCache :=
  { c with pinned := [] }

/-! ### The CanvasContext state machine (header lines 222-281; behaviour of
the declared-only members modelled from the spec §4.1-§4.5) -/

/-- One `SwapHistory` entry (header lines 234-240): damage rectangle, target
vsync time, swap-completed time, dequeue duration, queue duration. -/
structure SwapHistory where
  damage : SkRect
  vsyncTime : Int
  swapCompletedTime : Int
  dequeueDuration : Int
  queueDuration : Int
deriving DecidableEq, Repr

/-- Modelled from the spec: a `FrameInfo` telemetry sample for one attempted
frame (§3, §4.1 step 7); `failed` marks a pipeline draw failure (§7d),
`dropped` marks a stuffed-queue skip (§4.1 step 3). -/
structure FrameInfoSample where
  frameNumber : Int
  failed : Bool
  dropped : Bool
deriving DecidableEq, Repr

/-- Modelled from the spec: the value a deferred work item's future is
fulfilled with — "a sum type `Unit | Error`" (§9): `ok` when the callable
returns, `err` carrying the error when it raises (§4.4). -/
inductive TaskOutcome where
  | ok
  | err (msg : String)
deriving DecidableEq, Repr

/-- `FuncTask` (header lines 274-276): a deferred work item.  `taskId`
identifies the submission; `func` is the outcome the callable produces when
it is run. -/
structure FuncTask where
  taskId : Nat
  func : TaskOutcome
deriving DecidableEq, Repr

/-- The per-window context state (header lines 222-281).  Surfaces and render
nodes are identified by `Nat`; GPU-only fields not touched by any claim are
omitted.  `mDamage` is the running union held by `mDamageAccumulator`
(`none` when no damage is pending). -/
structure CanvasContext where
  mNativeSurface : Option Nat
  mStopped : Bool
  mIsDirty : Bool
  mSwapHistory : List SwapHistory
  mFrameNumber : Int
  mDamage : Option SkRect
  mFrames : List FrameInfoSample
  mFrameFences : List FuncTask
deriving DecidableEq, Repr

/-- `hasSurface` (header line 125). -/
def hasSurface (s : CanvasContext) : Bool := s.mNativeSurface.isSome

/-- Number of surfaces currently attached (the header stores at most one in
the single `sp<Surface> mNativeSurface` field, line 226). -/
def surfaceCount (s : CanvasContext) : Nat :=
  match s.mNativeSurface with
  | none => 0
  | some _ => 1

/-- The initial context state: header default member values (lines 226-261,
`mStopped = false`, `mFrameNumber = -1`, empty rings and queues). -/
def initialContext : CanvasContext :=
  ⟨none, false, false, [], -1, none, [], []⟩

/-- Modelled from the spec: `setSurface` binds (or clears) the presentable
surface (§4.1 `attachSurface`; header line 214). -/
def setSurface (w : Option Nat) (s : CanvasContext) : CanvasContext :=
  { s with mNativeSurface := w }

/-- Modelled from the spec: `setStopped` "transitions to a state where tree
updates are accepted and accumulated but draws are suppressed" (§4.1); the
redraw on resume is the subsequent triggered `draw` call. -/
def setStopped (stopped : Bool) (s : CanvasContext) : CanvasContext :=
  { s with mStopped := stopped }

/-- Merge one more dirty rectangle into the accumulated damage.  Modelled
from the spec: the accumulator "merges successive dirty rectangles ... into a
running union" (§4.3). -/
def accumDamage (d : Option SkRect) (r : SkRect) : Option SkRect :=
  match d with
  | none => some r
  | some x => some (x.join r)

/-- Modelled from the spec: `prepareTree` / `synchronizeTree` "pulls updated
geometry/paint state and damage from the scene graph into the damage
accumulator ...; must be callable even when not currently attached to a
surface (state accumulates)" (§4.1).  Marks the context dirty (header
lines 230-232). -/
def prepareTree (dmg : SkRect) (s : CanvasContext) : CanvasContext :=
  { s with mDamage := accumDamage s.mDamage dmg, mIsDirty := true }

/-- Apply a whole sequence of `prepareTree` calls. -/
def syncAll (rects : List SkRect) (s : CanvasContext) : CanvasContext :=
  rects.foldl (fun t r => prepareTree r t) s

/-- `enqueueFrameWork` (header line 199), modelled from the spec: appends the
work item to the FIFO deferred-work queue (§4.4). -/
def enqueueFrameWork (s : CanvasContext) (t : FuncTask) : CanvasContext :=
  { s with mFrameFences := s.mFrameFences ++ [t] }

/-- `waitOnFences` (header line 203), modelled from the spec: drains the
queue "executing items in submission order", and "if an item raises an
error, the corresponding future carries that error and the remaining queued
items still execute" (§4.4).  Returns, in execution order, each task's
identity paired with the value its future was fulfilled with. -/
def waitOnFences : List FuncTask → List (Nat × TaskOutcome)
  | [] => []
  | t :: ts => (t.taskId, t.func) :: waitOnFences ts

/-- Modelled from the spec: `isSwapChainStuffed` (header line 218) "returns
true when the time since the most recent swap completion, compared against
the interval between the two most recent swap-target times, indicates the
presentation queue holds more buffered frames than the display can consume"
(§4.2); with fewer than 2 samples there is no interval to compare against.
The ring stores the most recent entry last. -/
def isSwapChainStuffed (now : Int) (hist : List SwapHistory) : Bool :=
  match hist.reverse with
  | latest :: previous :: _ =>
      decide (now - latest.swapCompletedTime < latest.vsyncTime - previous.vsyncTime)
  | _ => false

/-- Per-draw inputs supplied by the environment: the clock, the timings the
platform reports for this swap, whether the accumulated damage reaches the
full-frame threshold (§4.1 step 3), and whether the pipeline's rasterization
succeeds (§6, §7d). -/
structure DrawEnv where
  now : Int
  vsyncTime : Int
  swapCompletedTime : Int
  dequeueDuration : Int
  queueDuration : Int
  fullFrameDamage : Bool
  pipelineOk : Bool
deriving DecidableEq, Repr

/-- The swap-history entry appended after a successful presentation. -/
def mkSwapEntry (env : DrawEnv) (d : SkRect) : SwapHistory :=
  ⟨d, env.vsyncTime, env.swapCompletedTime, env.dequeueDuration, env.queueDuration⟩

/-- What a `draw` call reported to its caller. -/
inductive DrawResult where
  /-- Step 1 early return: stopped or no surface attached; not an error. -/
  | noSurface
  /-- Step 3: stuffed swap chain, presentation skipped; not an error. -/
  | skipped
  /-- Steps 4-7 succeeded; carries the damage handed to the pipeline. -/
  | drew (damage : Option SkRect)
  /-- The pipeline's draw step failed (§7d); carries the damage handed in. -/
  | pipelineFailed (damage : Option SkRect)
deriving DecidableEq, Repr

/-- True exactly for the result that surfaces an error to the caller. -/
def DrawResult.isError : DrawResult → Bool
  | .pipelineFailed _ => true
  | _ => false

/-- Modelled from the spec: `draw` (header line 134), following §4.1 step by
step.  The frame counter counts every attempted draw (§3 invariant):
(1) when stopped or detached, return immediately — no swap-history append;
(2) resolve the deferred-work queue (`waitOnFences`, drained);
(3) when the swap chain is stuffed and pending damage is below the
full-frame threshold, skip presentation and record a dropped-frame sample;
(4)-(7) otherwise rasterize through the pipeline — on success present,
append a swap-history sample, clear damage and push the frame's telemetry
sample; on pipeline failure surface the error, still recording a telemetry
sample marked failed (§7d). -/
def draw (env : DrawEnv) (s : CanvasContext) : CanvasContext × DrawResult :=
  if s.mStopped || !hasSurface s then
    ({ s with mFrameNumber := s.mFrameNumber + 1 }, .noSurface)
  else if isSwapChainStuffed env.now s.mSwapHistory && s.mDamage.isSome
      && !env.fullFrameDamage then
    ({ s with
        mFrameNumber := s.mFrameNumber + 1
        mFrameFences := []
        mFrames := ringPush 120 s.mFrames ⟨s.mFrameNumber + 1, false, true⟩ },
     .skipped)
  else if env.pipelineOk then
    ({ s with
        mFrameNumber := s.mFrameNumber + 1
        mFrameFences := []
        mSwapHistory :=
          ringPush 3 s.mSwapHistory (mkSwapEntry env (s.mDamage.getD SkRect.empty))
        mDamage := none
        mIsDirty := false
        mFrames := ringPush 120 s.mFrames ⟨s.mFrameNumber + 1, false, false⟩ },
     .drew s.mDamage)
  else
    ({ s with
        mFrameNumber := s.mFrameNumber + 1
        mFrameFences := []
        mFrames := ringPush 120 s.mFrames ⟨s.mFrameNumber + 1, true, false⟩ },
     .pipelineFailed s.mDamage)

/-- Modelled from the spec: `doFrame` (header line 138) "performs tree
synchronization followed by `draw()`, unless stopped" (§4.1). -/
def doFrame (env : DrawEnv) (dmg : SkRect) (s : CanvasContext) :
    CanvasContext × Option DrawResult :=
  if s.mStopped then (s, none)
  else
    let out := draw env (prepareTree dmg s)
    (out.1, some out.2)

/-- Modelled from the spec: `prepareAndDraw` (header line 139) synchronizes
the tree and then draws. -/
def prepareAndDraw (env : DrawEnv) (dmg : SkRect) (s : CanvasContext) :
    CanvasContext × DrawResult :=
  draw env (prepareTree dmg s)

/-- One producer- or render-thread operation on the context, for stating
whole-execution invariants. -/
inductive Op where
  | sync (dmg : SkRect)
  | drawOp (env : DrawEnv)
  | stop (b : Bool)
  | surface (w : Option Nat)
  | frame (env : DrawEnv) (dmg : SkRect)
  | prepDraw (env : DrawEnv) (dmg : SkRect)
  | enqueue (t : FuncTask)

/-- Apply one operation. -/
def step (s : CanvasContext) : Op → CanvasContext
  | .sync d => prepareTree d s
  | .drawOp e => (draw e s).1
  | .stop b => setStopped b s
  | .surface w => setSurface w s
  | .frame e d => (doFrame e d s).1
  | .prepDraw e d => (prepareAndDraw e d s).1
  | .enqueue t => enqueueFrameWork s t

/-- Apply a whole execution. -/
def run (ops : List Op) (s : CanvasContext) : CanvasContext :=
  ops.foldl step s

/-- Number of attempted draws in an execution: every `draw`/`prepareAndDraw`
call, and every `doFrame` that is not suppressed by the stopped flag. -/
def attemptedDraws : CanvasContext → List Op → Nat
  | _, [] => 0
  | s, op :: ops =>
      (match op with
       | .drawOp _ => 1
       | .prepDraw _ _ => 1
       | .frame _ _ => if s.mStopped then 0 else 1
       | _ => 0) + attemptedDraws (step s op) ops

/-- An allocated reporter always holds at least one observer. -/
def ReporterInv (r : Option Reporter) : Prop :=
  ∀ rep : Reporter, r = some rep → rep ≠ ([] : List Nat)

/-- Result of a `doFrame` call: `none` when it was suppressed, else the
inner draw's result; true only when an error was surfaced. -/
def resultHasError : Option DrawResult → Bool
  | none => false
  | some r => DrawResult.isError r

/-! ### Helper lemmas -/

theorem SkRect.join_self (a : SkRect) : a.join a = a := by
  simp [SkRect.join]

theorem SkRect.join_right_idem (a c : SkRect) : (a.join c).join c = a.join c := by
  simp [SkRect.join, min_assoc, max_assoc]

theorem ringPush_length_le (cap : Nat) (buf : List α) (x : α) :
    (ringPush cap buf x).length ≤ cap := by
  simp only [ringPush]
  split
  · assumption
  · simp only [List.length_drop]
    omega

theorem stdRemove_eq_filter (node : Nat) (l : List Nat) :
    stdRemove node l = l.filter (fun x => x ≠ node) := by
  induction l with
  | nil => rfl
  | cons x xs ih =>
      by_cases h : x = node <;> simp [stdRemove, h, ih]

theorem prepareTree_fields (dmg : SkRect) (s : CanvasContext) :
    (prepareTree dmg s).mNativeSurface = s.mNativeSurface ∧
    (prepareTree dmg s).mStopped = s.mStopped ∧
    (prepareTree dmg s).mSwapHistory = s.mSwapHistory ∧
    (prepareTree dmg s).mFrameNumber = s.mFrameNumber ∧
    (prepareTree dmg s).mFrames = s.mFrames := by
  simp [prepareTree]

theorem syncAll_fields (rects : List SkRect) (s : CanvasContext) :
    (syncAll rects s).mNativeSurface = s.mNativeSurface ∧
    (syncAll rects s).mStopped = s.mStopped ∧
    (syncAll rects s).mSwapHistory = s.mSwapHistory ∧
    (syncAll rects s).mFrameNumber = s.mFrameNumber ∧
    (syncAll rects s).mFrames = s.mFrames := by
  induction rects generalizing s with
  | nil => simp [syncAll]
  | cons r rs ih =>
      have h := ih (prepareTree r s)
      simp [syncAll] at h ⊢
      simp [prepareTree] at h
      exact h

theorem syncAll_mDamage (rects : List SkRect) (s : CanvasContext) :
    (syncAll rects s).mDamage = rects.foldl accumDamage s.mDamage := by
  induction rects generalizing s with
  | nil => rfl
  | cons r rs ih =>
      simp only [syncAll, List.foldl_cons] at ih ⊢
      rw [ih (prepareTree r s)]
      rfl

theorem draw_mFrameNumber (env : DrawEnv) (s : CanvasContext) :
    ((draw env s).1).mFrameNumber = s.mFrameNumber + 1 := by
  unfold draw
  split
  · rfl
  split
  · rfl
  split <;> rfl

theorem draw_detached (env : DrawEnv) (s : CanvasContext)
    (h : s.mStopped = true ∨ s.mNativeSurface = none) :
    draw env s = ({ s with mFrameNumber := s.mFrameNumber + 1 }, .noSurface) := by
  have hcond : (s.mStopped || !hasSurface s) = true := by
    rcases h with h | h <;> simp [hasSurface, h]
  unfold draw
  rw [hcond]
  simp

theorem draw_mSwapHistory_le (env : DrawEnv) (s : CanvasContext)
    (h : s.mSwapHistory.length ≤ 3) :
    ((draw env s).1).mSwapHistory.length ≤ 3 := by
  unfold draw
  split
  · exact h
  split
  · exact h
  split
  · exact ringPush_length_le 3 _ _
  · exact h

theorem draw_mFrames_le (env : DrawEnv) (s : CanvasContext)
    (h : s.mFrames.length ≤ 120) :
    ((draw env s).1).mFrames.length ≤ 120 := by
  unfold draw
  split
  · exact h
  split
  · exact ringPush_length_le 120 _ _
  split
  · exact ringPush_length_le 120 _ _
  · exact ringPush_length_le 120 _ _

theorem step_mFrameNumber (s : CanvasContext) (op : Op) :
    (step s op).mFrameNumber =
      s.mFrameNumber +
        (match op with
         | .drawOp _ => 1
         | .prepDraw _ _ => 1
         | .frame _ _ => if s.mStopped then 0 else 1
         | _ => (0 : Int)) := by
  cases op with
  | sync d => simp [step, prepareTree]
  | drawOp e => simpa using draw_mFrameNumber e s
  | stop b => simp [step, setStopped]
  | surface w => simp [step, setSurface]
  | frame e d =>
      by_cases hs : s.mStopped
      · simp [step, doFrame, hs]
      · have h1 := draw_mFrameNumber e (prepareTree d s)
        simp [step, doFrame, hs, prepareTree] at h1 ⊢
        omega
  | prepDraw e d =>
      have h1 := draw_mFrameNumber e (prepareTree d s)
      simp [step, prepareAndDraw, prepareTree] at h1 ⊢
      omega
  | enqueue t => simp [step, enqueueFrameWork]

theorem run_mFrameNumber (ops : List Op) (s : CanvasContext) :
    (run ops s).mFrameNumber = s.mFrameNumber + (attemptedDraws s ops : Int) := by
  induction ops generalizing s with
  | nil => simp [run, attemptedDraws]
  | cons op ops ih =>
      have hstep := step_mFrameNumber s op
      have hrest := ih (step s op)
      simp only [run, List.foldl_cons] at hrest ⊢
      rw [hrest, hstep]
      cases op <;> simp [attemptedDraws] <;> omega

theorem waitOnFences_eq_map (q : List FuncTask) :
    waitOnFences q = q.map (fun t => (t.taskId, t.func)) := by
  induction q with
  | nil => rfl
  | cons t ts ih => simp [waitOnFences, ih]

theorem foldl_enqueue (items : List FuncTask) (s : CanvasContext) :
    (items.foldl enqueueFrameWork s).mFrameFences = s.mFrameFences ++ items := by
  induction items generalizing s with
  | nil => simp
  | cons t ts ih =>
      simp only [List.foldl_cons]
      rw [ih (enqueueFrameWork s t)]
      simp [enqueueFrameWork]

theorem applyObserverOp_inv (r : Option Reporter) (op : Bool × Nat)
    (h : ReporterInv r) : ReporterInv (applyObserverOp r op) := by
  unfold applyObserverOp
  split
  · cases r with
    | none =>
        intro rep hrep
        simp [addFrameMetricsObserver, Reporter.addObserver] at hrep
        simp [← hrep]
    | some rep0 =>
        intro rep hrep
        simp [addFrameMetricsObserver, Reporter.addObserver] at hrep
        simp [← hrep]
  · cases r with
    | none => intro rep hrep; simp [removeFrameMetricsObserver] at hrep
    | some rep0 =>
        intro rep hrep
        simp only [removeFrameMetricsObserver] at hrep
        split at hrep
        · rename_i hobs
          cases hrep
          simp [Reporter.hasObservers, List.isEmpty_iff] at hobs
          exact hobs
        · cases hrep

theorem foldl_observer_inv (ops : List (Bool × Nat)) (r : Option Reporter)
    (h : ReporterInv r) : ReporterInv (ops.foldl applyObserverOp r) := by
  induction ops generalizing r with
  | nil => exact h
  | cons op ops ih => exact ih _ (applyObserverOp_inv r op h)

/-! ### Claim theorems -/

/-- C2: `isSwapChainStuffed` returns false whenever the swap-history ring
holds fewer than 2 samples; with insufficient data it never advises skipping
presentation. -/
theorem stuffed_needs_two_samples (now : Int) (hist : List SwapHistory)
    (h : hist.length < 2) : isSwapChainStuffed now hist = false := by
  match hist with
  | [] => rfl
  | [a] => rfl
  | a :: c :: t => simp at h; omega

/-- Witness for C2 at the empty swap history. -/
theorem stuffed_needs_two_samples_witness :
    ([] : List SwapHistory).length < 2 ∧ isSwapChainStuffed 0 [] = false :=
  ⟨by decide, stuffed_needs_two_samples 0 [] (by decide)⟩

/-- C3: work items enqueued through `enqueueFrameWork`, possibly across
several frames before any draw, are drained by `waitOnFences` in FIFO
submission order; each item's future carries that item's own outcome (errors
included) and every queued item executes. -/
theorem fences_fifo (s : CanvasContext) (items : List FuncTask) :
    (items.foldl enqueueFrameWork s).mFrameFences = s.mFrameFences ++ items ∧
    waitOnFences ((items.foldl enqueueFrameWork s).mFrameFences) =
      (s.mFrameFences ++ items).map (fun t => (t.taskId, t.func)) ∧
    (waitOnFences ((items.foldl enqueueFrameWork s).mFrameFences)).length =
      (s.mFrameFences ++ items).length := by
  refine ⟨foldl_enqueue items s, ?_, ?_⟩ <;>
    rw [foldl_enqueue, waitOnFences_eq_map] <;> simp

/-- C8: pin → unpin → pin round trip: whenever `pinImages` accepts an image
set under a given cache budget, unpinning and pinning the same set again
succeeds under the same (unchanged) budget. -/
theorem pin_roundtrip (c : PipelineCache) (imgs : List Nat)
    (h : (pinImages c imgs).2 = true) :
    (pinImages (unpinImages (pinImages c imgs).1) imgs).2 = true ∧
    (unpinImages (pinImages c imgs).1).budget = c.budget := by
  have hc : c.pinnedBytes + imgs.sum ≤ c.budget := by
    by_contra hc
    simp [pinImages, hc] at h
  constructor
  · simp only [pinImages, unpinImages, PipelineCache.pinnedBytes] at hc ⊢
    split <;> split <;> simp_all <;> omega
  · simp only [pinImages, unpinImages]
    split <;> rfl

/-- Witness for C8: budget 10, two images of 3 and 4 bytes. -/
theorem pin_roundtrip_witness :
    (pinImages ⟨10, []⟩ [3, 4]).2 = true ∧
    (pinImages (unpinImages (pinImages ⟨10, []⟩ [3, 4]).1) [3, 4]).2 = true :=
  ⟨by decide, (pin_roundtrip ⟨10, []⟩ [3, 4] (by decide)).1⟩

/-- C10: `removeRenderNode` removes every occurrence of the node, keeping
the remaining nodes in their relative order (it equals `filter`), and leaves
the sequence unchanged when the node is absent; `addRenderNode` inserts at
the front when `placeFront` and at the back otherwise, not disturbing the
existing order. -/
theorem render_node_ops (nodes : List Nat) (node : Nat) :
    removeRenderNode nodes node = nodes.filter (fun x => x ≠ node) ∧
    node ∉ removeRenderNode nodes node ∧
    (node ∉ nodes → removeRenderNode nodes node = nodes) ∧
    addRenderNode nodes node true = node :: nodes ∧
    addRenderNode nodes node false = nodes ++ [node] := by
  refine ⟨stdRemove_eq_filter node nodes, ?_, ?_, ?_, ?_⟩
  · rw [removeRenderNode, stdRemove_eq_filter]
    simp
  · intro hnot
    rw [removeRenderNode, stdRemove_eq_filter]
    apply List.filter_eq_self.mpr
    intro a ha
    simp only [ne_eq, decide_eq_true_eq]
    exact fun he => hnot (he ▸ ha)
  · simp [addRenderNode, List.insertIdx_zero]
  · simp [addRenderNode, List.insertIdx_length_self]

/-- Witness for C10 at a concrete node list, discharging the absent-node
hypothesis of the third conjunct. -/
theorem render_node_ops_witness :
    removeRenderNode [1, 2, 1, 3] 1 = [2, 3] ∧
    removeRenderNode [2, 3] 1 = [2, 3] ∧
    addRenderNode [2, 3] 5 true = [5, 2, 3] ∧
    addRenderNode [2, 3] 5 false = [2, 3, 5] :=
  ⟨by rw [(render_node_ops [1, 2, 1, 3] 1).1]; decide,
   (render_node_ops [2, 3] 1).2.2.1 (by decide),
   (render_node_ops [2, 3] 5).2.2.2.1,
   (render_node_ops [2, 3] 5).2.2.2.2⟩

/-- C7: over every sequence of add/remove observer calls starting from no
reporter, the reporter is allocated exactly when at least one observer is
registered: it is created by the first add when absent, and freed by the
remove that deregisters the last observer. -/
theorem reporter_lazy_lifecycle (ops : List (Bool × Nat)) :
    ((ops.foldl applyObserverOp (none : Option Reporter)).isSome = true ↔
      1 ≤ registeredObservers (ops.foldl applyObserverOp none)) ∧
    (∀ o : Nat, addFrameMetricsObserver none o = some [o]) ∧
    (∀ (rep : Reporter) (o : Nat),
      removeFrameMetricsObserver (some rep) o = none ↔
        List.isEmpty (List.erase rep o) = true) := by
  refine ⟨?_, ?_, ?_⟩
  · have hinv := foldl_observer_inv ops none (by intro rep h; cases h)
    cases hr : ops.foldl applyObserverOp (none : Option Reporter) with
    | none => simp [registeredObservers]
    | some rep =>
        have hne := hinv rep hr
        have : 0 < rep.length := List.length_pos.mpr hne
        simp [registeredObservers]
        omega
  · intro o
    rfl
  · intro rep o
    cases he : List.isEmpty (List.erase rep o) with
    | false =>
        simp [removeFrameMetricsObserver, Reporter.removeObserver,
          Reporter.hasObservers, he]
    | true =>
        simp [removeFrameMetricsObserver, Reporter.removeObserver,
          Reporter.hasObservers, he]

/-- C1: a draw attempted while detached — after any sequence of
`prepareTree` calls — appends no swap-history sample yet increments the
frame counter exactly once; and over all executions the frame counter is
monotonically non-decreasing, growing by exactly the number of attempted
draws. -/
theorem detached_draw_counts_frame (s : CanvasContext) (env : DrawEnv)
    (rects : List SkRect) (h : s.mNativeSurface = none) :
    ((draw env (syncAll rects s)).1.mSwapHistory = s.mSwapHistory ∧
     (draw env (syncAll rects s)).2 = DrawResult.noSurface ∧
     (draw env (syncAll rects s)).1.mFrameNumber = s.mFrameNumber + 1) ∧
    (∀ (t : CanvasContext) (ops : List Op),
      (run ops t).mFrameNumber = t.mFrameNumber + (attemptedDraws t ops : Int) ∧
      t.mFrameNumber ≤ (run ops t).mFrameNumber) := by
  have hs := syncAll_fields rects s
  have hdet : (syncAll rects s).mNativeSurface = none := hs.1.trans h
  have hd := draw_detached env (syncAll rects s) (Or.inr hdet)
  refine ⟨?_, ?_⟩
  · rw [hd]
    exact ⟨hs.2.2.1, rfl, by simp [hs.2.2.2.1]⟩
  · intro t ops
    refine ⟨run_mFrameNumber ops t, ?_⟩
    rw [run_mFrameNumber ops t]
    omega

/-- Witness for C1: a detached context, one synchronized rectangle, one
draw. -/
theorem detached_draw_counts_frame_witness :
    initialContext.mNativeSurface = none ∧
    (draw ⟨0, 0, 0, 0, 0, false, true⟩
        (syncAll [⟨0, 0, 4, 4⟩] initialContext)).1.mSwapHistory =
      initialContext.mSwapHistory ∧
    (draw ⟨0, 0, 0, 0, 0, false, true⟩
        (syncAll [⟨0, 0, 4, 4⟩] initialContext)).1.mFrameNumber =
      initialContext.mFrameNumber + 1 :=
  ⟨rfl,
   ((detached_draw_counts_frame initialContext ⟨0, 0, 0, 0, 0, false, true⟩
      [⟨0, 0, 4, 4⟩] rfl).1).1,
   ((detached_draw_counts_frame initialContext ⟨0, 0, 0, 0, 0, false, true⟩
      [⟨0, 0, 4, 4⟩] rfl).1).2.2⟩

/-- C4: `draw`, `doFrame` and `prepareAndDraw` invoked while detached or
stopped return normally with no error and perform no drawing side effects
(swap history and telemetry untouched); the context holds at most one
attached surface. -/
theorem draw_ops_noop_when_detached_or_stopped (s : CanvasContext)
    (env : DrawEnv) (dmg : SkRect)
    (h : s.mStopped = true ∨ s.mNativeSurface = none) :
    ((draw env s).2 = DrawResult.noSurface ∧
     DrawResult.isError (draw env s).2 = false ∧
     (draw env s).1.mSwapHistory = s.mSwapHistory ∧
     (draw env s).1.mFrames = s.mFrames ∧
     (draw env s).1.mDamage = s.mDamage) ∧
    ((doFrame env dmg s).1.mSwapHistory = s.mSwapHistory ∧
     (doFrame env dmg s).1.mFrames = s.mFrames ∧
     resultHasError (doFrame env dmg s).2 = false) ∧
    ((prepareAndDraw env dmg s).2 = DrawResult.noSurface ∧
     (prepareAndDraw env dmg s).1.mSwapHistory = s.mSwapHistory ∧
     (prepareAndDraw env dmg s).1.mFrames = s.mFrames) ∧
    surfaceCount s ≤ 1 := by
  have hp := prepareTree_fields dmg s
  have hp' : (prepareTree dmg s).mStopped = true ∨
      (prepareTree dmg s).mNativeSurface = none := by
    rcases h with h | h
    · exact Or.inl (hp.2.1.trans h)
    · exact Or.inr (hp.1.trans h)
  have hd := draw_detached env s h
  have hd2 := draw_detached env (prepareTree dmg s) hp'
  refine ⟨?_, ?_, ?_, ?_⟩
  · rw [hd]
    exact ⟨rfl, rfl, rfl, rfl, rfl⟩
  · by_cases hs : s.mStopped = true
    · simp [doFrame, hs, resultHasError]
    · simp only [doFrame, hs, if_neg, Bool.false_eq_true, not_false_eq_true,
        if_false]
      rw [hd2]
      exact ⟨hp.2.2.1, hp.2.2.2.2, rfl⟩
  · simp only [prepareAndDraw]
    rw [hd2]
    exact ⟨rfl, hp.2.2.1, hp.2.2.2.2⟩
  · cases hw : s.mNativeSurface <;> simp [surfaceCount, hw]

/-- Witness for C4: a stopped context with a surface attached. -/
theorem draw_ops_noop_witness :
    ((⟨some 7, true, false, [], 0, none, [], []⟩ : CanvasContext).mStopped = true ∨
      (⟨some 7, true, false, [], 0, none, [], []⟩ : CanvasContext).mNativeSurface
        = none) ∧
    (draw ⟨0, 0, 0, 0, 0, false, true⟩
        (⟨some 7, true, false, [], 0, none, [], []⟩ : CanvasContext)).2 =
      DrawResult.noSurface :=
  ⟨Or.inl rfl,
   (draw_ops_noop_when_detached_or_stopped
      (⟨some 7, true, false, [], 0, none, [], []⟩ : CanvasContext)
      ⟨0, 0, 0, 0, 0, false, true⟩ ⟨0, 0, 1, 1⟩ (Or.inl rfl)).1.1⟩

/-- C5: when the pipeline's draw step fails during an active `draw`, the
failure is surfaced to the caller as an error result, the frame counter is
still incremented, and a telemetry sample marked failed is still recorded;
no swap-history sample is appended. -/
theorem pipeline_failure_surfaced (s : CanvasContext) (env : DrawEnv)
    (hs : s.mStopped = false) (hw : hasSurface s = true)
    (hq : isSwapChainStuffed env.now s.mSwapHistory = false)
    (hp : env.pipelineOk = false) :
    (draw env s).2 = DrawResult.pipelineFailed s.mDamage ∧
    DrawResult.isError (draw env s).2 = true ∧
    (draw env s).1.mFrameNumber = s.mFrameNumber + 1 ∧
    (draw env s).1.mFrames =
      ringPush 120 s.mFrames ⟨s.mFrameNumber + 1, true, false⟩ ∧
    (draw env s).1.mSwapHistory = s.mSwapHistory := by
  unfold draw
  rw [hs, hw, hq, hp]
  simp [DrawResult.isError]

/-- Witness for C5: active context, failing pipeline. -/
theorem pipeline_failure_surfaced_witness :
    hasSurface (⟨some 1, false, false, [], 5, some ⟨0, 0, 2, 2⟩, [], []⟩ :
      CanvasContext) = true ∧
    (draw ⟨0, 0, 0, 0, 0, false, false⟩
        (⟨some 1, false, false, [], 5, some ⟨0, 0, 2, 2⟩, [], []⟩ :
          CanvasContext)).2 =
      DrawResult.pipelineFailed (some ⟨0, 0, 2, 2⟩) :=
  ⟨by decide,
   (pipeline_failure_surfaced
      (⟨some 1, false, false, [], 5, some ⟨0, 0, 2, 2⟩, [], []⟩ : CanvasContext)
      ⟨0, 0, 0, 0, 0, false, false⟩ rfl (by decide) (by decide) rfl).1⟩

theorem prepareTree_idem (r : SkRect) (s : CanvasContext) :
    prepareTree r (prepareTree r s) = prepareTree r s := by
  cases s with
  | mk sf st dy sh fn dm fr fe =>
      cases dm with
      | none => simp [prepareTree, accumDamage, SkRect.join_self]
      | some x => simp [prepareTree, accumDamage, SkRect.join_right_idem]

theorem syncAll_replicate (r : SkRect) (m : Nat) :
    ∀ s : CanvasContext, syncAll (List.replicate (m + 1) r) s = prepareTree r s := by
  induction m with
  | zero => intro s; rfl
  | succ k ih =>
      intro s
      have h1 : List.replicate (k + 1 + 1) r = r :: List.replicate (k + 1) r :=
        rfl
      rw [h1]
      show syncAll (List.replicate (k + 1) r) (prepareTree r s) = prepareTree r s
      rw [ih (prepareTree r s), prepareTree_idem]

/-- C6: after `setStopped true`, any damage synchronized while stopped, then
`setStopped false`, the triggered draw hands the pipeline exactly the union
of all damage accumulated while stopped; and accumulation is idempotent —
synchronizing the same rectangle N ≥ 1 times yields the identical state,
hence identical drawn damage, as synchronizing it once. -/
theorem resume_draws_accumulated_damage (s : CanvasContext) (env : DrawEnv)
    (rects : List SkRect) (r : SkRect) (n : Nat)
    (hw : hasSurface s = true)
    (hq : isSwapChainStuffed env.now s.mSwapHistory = false)
    (hp : env.pipelineOk = true) (hn : 1 ≤ n) :
    (draw env (setStopped false (syncAll rects (setStopped true s)))).2 =
      DrawResult.drew (rects.foldl accumDamage s.mDamage) ∧
    syncAll (List.replicate n r) s = prepareTree r s := by
  constructor
  · have hsf := syncAll_fields rects (setStopped true s)
    have hdm := syncAll_mDamage rects (setStopped true s)
    set s1 := syncAll rects (setStopped true s) with hs1
    have hw1 : hasSurface (setStopped false s1) = true := by
      simpa [hasSurface, setStopped, hsf.1, setStopped] using hw
    have hq1 : isSwapChainStuffed env.now (setStopped false s1).mSwapHistory
        = false := by
      simpa [setStopped, hsf.2.2.1] using hq
    have hst : (setStopped false s1).mStopped = false := rfl
    have hdm1 : (setStopped false s1).mDamage =
        rects.foldl accumDamage s.mDamage := by
      simpa [setStopped] using hdm
    unfold draw
    rw [hst, hw1, hq1, hp]
    simp [hdm1]
  · match n, hn with
    | m + 1, _ => exact syncAll_replicate r m s

/-- Witness for C6: a context with a surface, empty swap history, a working
pipeline, two stopped-phase rectangles, and a doubled submission. -/
theorem resume_draws_accumulated_damage_witness :
    hasSurface (⟨some 1, false, false, [], 0, none, [], []⟩ : CanvasContext)
      = true ∧
    (draw ⟨0, 0, 0, 0, 0, false, true⟩
        (setStopped false
          (syncAll [⟨0, 0, 2, 2⟩, ⟨1, 1, 4, 4⟩]
            (setStopped true
              (⟨some 1, false, false, [], 0, none, [], []⟩ :
                CanvasContext))))).2 =
      DrawResult.drew (some ⟨0, 0, 4, 4⟩) ∧
    syncAll (List.replicate 3 ⟨0, 0, 2, 2⟩)
        (⟨some 1, false, false, [], 0, none, [], []⟩ : CanvasContext) =
      prepareTree ⟨0, 0, 2, 2⟩
        (⟨some 1, false, false, [], 0, none, [], []⟩ : CanvasContext) :=
  ⟨by decide,
   by
     have h := (resume_draws_accumulated_damage
        (⟨some 1, false, false, [], 0, none, [], []⟩ : CanvasContext)
        ⟨0, 0, 0, 0, 0, false, true⟩ [⟨0, 0, 2, 2⟩, ⟨1, 1, 4, 4⟩] ⟨0, 0, 2, 2⟩ 3
        (by decide) (by decide) rfl (by decide)).1
     rw [h]
     decide,
   (resume_draws_accumulated_damage
      (⟨some 1, false, false, [], 0, none, [], []⟩ : CanvasContext)
      ⟨0, 0, 0, 0, 0, false, true⟩ [⟨0, 0, 2, 2⟩, ⟨1, 1, 4, 4⟩] ⟨0, 0, 2, 2⟩ 3
      (by decide) (by decide) rfl (by decide)).2⟩

theorem step_ring_bounds (s : CanvasContext) (op : Op)
    (h3 : s.mSwapHistory.length ≤ 3) (h120 : s.mFrames.length ≤ 120) :
    (step s op).mSwapHistory.length ≤ 3 ∧ (step s op).mFrames.length ≤ 120 := by
  cases op with
  | sync d => exact ⟨by simpa [step, prepareTree] using h3,
      by simpa [step, prepareTree] using h120⟩
  | drawOp e => exact ⟨draw_mSwapHistory_le e s h3, draw_mFrames_le e s h120⟩
  | stop b => exact ⟨by simpa [step, setStopped] using h3,
      by simpa [step, setStopped] using h120⟩
  | surface w => exact ⟨by simpa [step, setSurface] using h3,
      by simpa [step, setSurface] using h120⟩
  | frame e d =>
      by_cases hs : s.mStopped = true
      · exact ⟨by simpa [step, doFrame, hs] using h3,
          by simpa [step, doFrame, hs] using h120⟩
      · have hp := prepareTree_fields d s
        have ha := draw_mSwapHistory_le e (prepareTree d s)
          (by rw [hp.2.2.1]; exact h3)
        have hb := draw_mFrames_le e (prepareTree d s)
          (by rw [hp.2.2.2.2]; exact h120)
        exact ⟨by simpa [step, doFrame, hs] using ha,
          by simpa [step, doFrame, hs] using hb⟩
  | prepDraw e d =>
      have hp := prepareTree_fields d s
      have ha := draw_mSwapHistory_le e (prepareTree d s)
        (by rw [hp.2.2.1]; exact h3)
      have hb := draw_mFrames_le e (prepareTree d s)
        (by rw [hp.2.2.2.2]; exact h120)
      exact ⟨by simpa [step, prepareAndDraw] using ha,
        by simpa [step, prepareAndDraw] using hb⟩
  | enqueue t => exact ⟨by simpa [step, enqueueFrameWork] using h3,
      by simpa [step, enqueueFrameWork] using h120⟩

/-- C9: the swap-history ring never holds more than 3 entries and the
FrameInfo ring never holds more than 120 entries (two seconds of frames at
the 60 Hz target rate), over every execution — neither grows without
bound. -/
theorem ring_capacities (s : CanvasContext) (ops : List Op)
    (h3 : s.mSwapHistory.length ≤ 3) (h120 : s.mFrames.length ≤ 120) :
    (run ops s).mSwapHistory.length ≤ 3 ∧
    (run ops s).mFrames.length ≤ 120 := by
  induction ops generalizing s with
  | nil => exact ⟨h3, h120⟩
  | cons op ops ih =>
      have hstep := step_ring_bounds s op h3 h120
      simpa [run] using ih (step s op) hstep.1 hstep.2

/-- Witness for C9: the initial context and an execution of five draws. -/
theorem ring_capacities_witness :
    initialContext.mSwapHistory.length ≤ 3 ∧
    initialContext.mFrames.length ≤ 120 ∧
    (run (List.replicate 5 (Op.drawOp ⟨0, 0, 0, 0, 0, false, true⟩))
        initialContext).mSwapHistory.length ≤ 3 :=
  ⟨by decide, by decide,
   (ring_capacities initialContext
      (List.replicate 5 (Op.drawOp ⟨0, 0, 0, 0, 0, false, true⟩))
      (by decide) (by decide)).1⟩

end HWUI
